import Mathlib

/-!
# StreamMinecraftClone: world metadata, chunk coordinates and the sub-chunk state machine

A shallow embedding of the parts of `World.cpp`, `ChunkManager.h` and
`CreateWorldMenu.cpp` that the properties below talk about.

Conventions of the embedding:
* a finite `float` value is a rational (`ℚ`); the `float` operations of
  `World::toChunkCoords` and of `glm::distance2` round to `binary32`, `glm::floor` is
  `Int.floor`, and a conversion of a `float` to `int` truncates toward zero; the sun
  angle takes `CMath::mapRange` as the exact linear interpolation;
* `uint32` values are natural numbers below `2 ^ 32`;
* a file is a list of bytes, the file system a partial map from paths to files.
-/

namespace Minecraft

/-! ## `ChunkManager.h`: the sub-chunk state enumeration -/

/-- The enumeration `SubChunkState` of `ChunkManager.h`, enumerators in declaration order. -/
inductive SubChunkState
  | Unloaded
  | LoadBlockData
  | LoadingBlockData
  | RetesselateVertices
  | DoneRetesselating
  | TesselateVertices
  | TesselatingVertices
  | UploadVerticesToGpu
  | Uploaded
  deriving DecidableEq, Repr

namespace SubChunkState

/-- The numeric value of an enumerator: `enum class SubChunkState : uint8` gives no
explicit values, so the first enumerator is 0 and each next one is one more. -/
def val : SubChunkState → Nat
  | Unloaded => 0
  | LoadBlockData => 1
  | LoadingBlockData => 2
  | RetesselateVertices => 3
  | DoneRetesselating => 4
  | TesselateVertices => 5
  | TesselatingVertices => 6
  | UploadVerticesToGpu => 7
  | Uploaded => 8

/-- The required traversal order of the pipeline, as the specification writes it:
`Unloaded → LoadBlockData → LoadingBlockData → RetesselateVertices →
DoneRetesselating → TesselateVertices → TesselatingVertices → UploadVerticesToGpu →
Uploaded`. -/
def traversalOrder : List SubChunkState :=
  [Unloaded, LoadBlockData, LoadingBlockData, RetesselateVertices, DoneRetesselating,
   TesselateVertices, TesselatingVertices, UploadVerticesToGpu, Uploaded]

/-- State `a` comes before state `b` in the pipeline: `a` stands at an earlier place
of the traversal order than `b`. -/
def comesBefore (a b : SubChunkState) : Prop :=
  traversalOrder.indexOf a < traversalOrder.indexOf b

instance (a b : SubChunkState) : Decidable (comesBefore a b) := by
  unfold comesBefore; infer_instance

/-- The state that follows `s` in the traversal order; `Uploaded` is the last one. -/
def next : SubChunkState → SubChunkState
  | Unloaded => LoadBlockData
  | LoadBlockData => LoadingBlockData
  | LoadingBlockData => RetesselateVertices
  | RetesselateVertices => DoneRetesselating
  | DoneRetesselating => TesselateVertices
  | TesselateVertices => TesselatingVertices
  | TesselatingVertices => UploadVerticesToGpu
  | UploadVerticesToGpu => Uploaded
  | Uploaded => Uploaded

end SubChunkState

/-- What can happen to one sub-chunk in one step of the program (spec §4.2). -/
inductive SubChunkEvent
  /-- The task of the current state has completed. -/
  | stateCompleted
  /-- A block edit that invalidates the mesh of the sub-chunk was notified. -/
  | blockEdited
  deriving DecidableEq, Repr

/-- Modelled from the spec: the transitions of `SubChunk::state`, the state machine of
§4.2. The code that writes the field (`ChunkManager.cpp`) is not among the sources;
`ChunkManager.h` only declares it as `std::atomic<SubChunkState>`.

* only forward transitions, no state is skipped, the completion of a state is the only
  trigger for the next one;
* re-entry to `RetesselateVertices` from `Uploaded`, triggered by a block-edit
  notification, is the only back-reference of the graph (§4.1: an edit of a sub-region
  that is already mid-pipeline is a no-op).

The release of a pool slot (§4.5), which hands the buffer of a sub-region that has left
the directory to another one, is not a transition of this graph. -/
def subChunkStep : SubChunkEvent → SubChunkState → SubChunkState
  | .stateCompleted, s => s.next
  | .blockEdited, .Uploaded => .RetesselateVertices
  | .blockEdited, s => s

/-- A `glm::vec3` world position. -/
structure Vec3 where
  x : ℚ
  y : ℚ
  z : ℚ
  deriving DecidableEq

/-- Conversion of a `float` to `int`, as done by `(int)f`: the fractional part is
discarded (truncation toward zero). The range of `int` is the matter of `floatToInt32`. -/
def floatToInt (q : ℚ) : Int :=
  if 0 ≤ q then ⌊q⌋ else ⌈q⌉

/-- The function `glm::floor` on a `float`: the largest integral value not above `q`,
still a `float`. -/
def glmFloor (q : ℚ) : ℚ :=
  ((⌊q⌋ : Int) : ℚ)

/-! ### binary32 arithmetic

A finite `float` is a rational number; every arithmetic operation on `float` gives the
exact result rounded to the nearest value of `binary32`, ties to even, and overflows to
infinity from `2 ^ 128` on. -/

/-- Rounding to the nearest integer, ties to the even one. -/
def roundHalfEven (q : ℚ) : Int :=
  if q - ⌊q⌋ < 1 / 2 then ⌊q⌋
  else if 1 / 2 < q - ⌊q⌋ then ⌊q⌋ + 1
  else if ⌊q⌋ % 2 = 0 then ⌊q⌋ else ⌊q⌋ + 1

/-- The binary exponent with which `binary32` stores a value near `q`: that of `q`, but
not below the exponent -126 of the subnormal numbers. -/
def float32Exponent (q : ℚ) : Int :=
  if |q| < (2 : ℚ) ^ (-126 : Int) then -126 else Int.log 2 |q|

/-- Rounding to `binary32` without regard to overflow: the nearest multiple of the unit
in the last place, which is `2 ^ (e - 23)` for a significand of 24 bits. -/
def roundFloat32 (q : ℚ) : ℚ :=
  (roundHalfEven (q / (2 : ℚ) ^ (float32Exponent q - 23)) : ℚ)
    * (2 : ℚ) ^ (float32Exponent q - 23)

/-- The `float` result of an operation whose exact result is `q`; `none` stands for an
infinity. -/
def float32Of (q : ℚ) : Option ℚ :=
  if |roundFloat32 q| < (2 : ℚ) ^ (128 : Int) then some (roundFloat32 q) else none

/-- The rational `q` is a finite value of `binary32`. -/
def isFloat32 (q : ℚ) : Prop :=
  roundFloat32 q = q ∧ |q| < (2 : ℚ) ^ (128 : Int)

/-- Conversion of a `float` to a 32-bit `int`, as done by the construction of a
`glm::ivec2` from `float` arguments: truncation toward zero; `none` when the truncated
value is not an `int`, where C++ leaves the behaviour undefined. -/
def floatToInt32 (q : ℚ) : Option Int :=
  if -2147483648 ≤ floatToInt q ∧ floatToInt q < 2147483648 then some (floatToInt q) else none

/-- The function `glm::distance2` on two `glm::vec2`, `length2(p1 - p0)`, that is
`dot(v, v)` with `v = p1 - p0`: the two differences, the two squares and their sum,
each a `float` operation. Every overflow ends in plus infinity, `none`. -/
def distance2 (p0 p1 : ℚ × ℚ) : Option ℚ :=
  (float32Of (p1.1 - p0.1)).bind fun dx =>
  (float32Of (p1.2 - p0.2)).bind fun dy =>
  (float32Of (dx * dx)).bind fun xx =>
  (float32Of (dy * dy)).bind fun yy =>
  float32Of (xx + yy)

/-- The squared distance of two points of the plane as a number, without rounding. -/
def exactDistance2 (a b : ℚ × ℚ) : ℚ :=
  (a.1 - b.1) * (a.1 - b.1) + (a.2 - b.2) * (a.2 - b.2)

/-- The comparison `a > b` of a `float` that may be plus infinity with a finite one. -/
def floatGt (a : Option ℚ) (b : ℚ) : Bool :=
  match a with
  | none => true
  | some v => decide (v > b)

/-- Modelled from the spec: `CMath::mapRange` (`utils/CMath.h` is not among the sources),
taken as the linear interpolation that sends `inMin` to `outMin` and `inMax` to `outMax`. -/
def mapRange (v inMin inMax outMin outMax : ℚ) : ℚ :=
  (v - inMin) / (inMax - inMin) * (outMax - outMin) + outMin

/-! ## Files -/

/-- One byte of a file. -/
abbrev Byte := Fin 256

/-- The files the program can see. -/
structure FileSystem where
  /-- The content of each regular file, `none` where there is no file. -/
  files : String → Option (List Byte)
  /-- The paths that `fopen` refuses to open, in any mode. -/
  denied : String → Bool

namespace FileSystem

/-- The function `File::isFile`: there is a regular file at `path`. -/
def isFile (fs : FileSystem) (path : String) : Bool :=
  (fs.files path).isSome

/-- The call `fopen(path, "rb")`: the content to read, `none` when the stream is null. -/
def openRead (fs : FileSystem) (path : String) : Option (List Byte) :=
  if fs.denied path then none else fs.files path

/-- The call `fopen(path, "wb")`, the writes of `content` and `fclose`: the file is
created or truncated and then holds `content`; `none` when the stream is null. -/
def writeFile (fs : FileSystem) (path : String) (content : List Byte) : Option FileSystem :=
  if fs.denied path then none
  else some { fs with files := fun p => if p = path then some content else fs.files p }

end FileSystem

/-- The constant `UINT32_MAX`. -/
def UINT32_MAX : Nat := 4294967295

/-- The four bytes of the object representation of a `uint32`, in file order. -/
def uint32Bytes (bigEndian : Bool) (v : Nat) : List Byte :=
  let b0 : Byte := ⟨v % 256, Nat.mod_lt _ (by decide)⟩
  let b1 : Byte := ⟨v / 256 % 256, Nat.mod_lt _ (by decide)⟩
  let b2 : Byte := ⟨v / 65536 % 256, Nat.mod_lt _ (by decide)⟩
  let b3 : Byte := ⟨v / 16777216 % 256, Nat.mod_lt _ (by decide)⟩
  if bigEndian then [b3, b2, b1, b0] else [b0, b1, b2, b3]

/-- The `uint32` whose object representation is `bytes`. -/
def uint32OfBytes (bigEndian : Bool) (bytes : List Byte) : Nat :=
  (if bigEndian then bytes.reverse else bytes).foldr (fun b acc => b.val + 256 * acc) 0

/-- The call `fread(&v, sizeof(uint32), 1, fp)` on a freshly opened file: the number of
complete elements read and the new value of `v`. The bytes that the file has, up to four,
overwrite the leading bytes of `v`; the bytes that it lacks stay as they were. -/
def fread_uint32 (bigEndian : Bool) (file : List Byte) (v : Nat) : Nat × Nat :=
  let got := file.take 4
  (if got.length = 4 then 1 else 0,
   uint32OfBytes bigEndian (got ++ (uint32Bytes bigEndian v).drop got.length))

/-- What the process gets from its surroundings. -/
structure Env where
  /-- The directory `AppData::worldsRootPath`. -/
  worldsRootPath : String
  /-- The string of `std::filesystem::path(a) / std::filesystem::path(b)`. -/
  joinPath : String → String → String
  /-- The byte order of the machine. -/
  bigEndian : Bool
  /-- The value of `(uint32)(((float)rand() / (float)RAND_MAX) * UINT32_MAX)` at the
  next draw. -/
  freshSeed : Nat

namespace World

/-- The function `World::toChunkCoords`:
`{ glm::floor(x / 16.0f), glm::floor(z / 16.0f) }` as a `glm::ivec2`. The two
divisions are `float` operations, the construction of the `glm::ivec2` converts each
`float` to `int`; `none` when one of the conversions is undefined. -/
def toChunkCoords (worldCoordinates : Vec3) : Option (Int × Int) :=
  match floatToInt32 (glmFloor (roundFloat32 (worldCoordinates.x / 16))),
        floatToInt32 (glmFloor (roundFloat32 (worldCoordinates.z / 16))) with
  | some cx, some cz => some (cx, cz)
  | _, _ => none

/-- The player position that `World::init` sets: `(-145.0f, 289, 55.0f)`. -/
def spawnPosition : Vec3 := ⟨-145, 289, 55⟩

/-- The daylight step of `World::update`:
`if (doDaylightCycle) worldTime = (worldTime + 10) % 2400;` (`%` of C++ on `int`). -/
def advanceWorldTime (doDaylightCycle : Bool) (worldTime : Int) : Int :=
  if doDaylightCycle then Int.tmod (worldTime + 10) 2400 else worldTime

/-- The sun angle `sunXRotation` that `World::update` computes from `worldTime`. -/
def sunXRotation (worldTime : Int) : Int :=
  if 600 ≤ worldTime ∧ worldTime ≤ 1800 then
    let r := floatToInt (mapRange worldTime 600 1800 (-45) 235)
    if r < 0 then 360 - r else r
  else if worldTime > 1800 then
    floatToInt (mapRange worldTime 1800 2400 235 240)
  else
    floatToInt (mapRange worldTime 0 600 240 315)

/-- The value uploaded as `uIsDay` to the transparent and to the opaque shader:
`sunXRotation > 180 && sunXRotation < 360`. -/
def uIsDay (worldTime : Int) : Bool :=
  decide (sunXRotation worldTime > 180 ∧ sunXRotation worldTime < 360)

/-- The namespace-level variables of `World.cpp` that the modelled functions read or
write: `savePath`, `seed`, `chunkSavePath`, `worldTime`, `doDaylightCycle`,
`lastPlayerLoadPosition` and `isClient`. -/
structure State where
  savePath : String
  seed : Nat
  chunkSavePath : String
  worldTime : Int
  doDaylightCycle : Bool
  lastPlayerLoadPosition : ℚ × ℚ
  isClient : Bool
  deriving DecidableEq

/-- What one call of `World::update` hands to its collaborators. -/
structure FrameOutput where
  /-- The angle used for `uSunDirection`. -/
  sunXRotation : Int
  /-- The flag `uIsDay` of both shaders. -/
  uIsDay : Bool
  /-- The chunk coordinates handed to `ChunkManager::render`. -/
  playerPositionInChunkCoords : Option (Int × Int)
  /-- The argument of `ChunkManager::checkChunkRadius` when it is called, `none` when it is not. -/
  checkChunkRadius : Option Vec3
  deriving DecidableEq

/-- The condition of the radius check of `World::update`:
`glm::distance2(glm::vec2(playerPosition.x, playerPosition.z), lastPlayerLoadPosition)
> World::ChunkWidth * World::ChunkDepth`, a comparison of `float` values: the integer
product is converted to `float`. `ChunkWidth` and `ChunkDepth` are the constants of
`World.h` (not among the sources). -/
def radiusExceeded (ChunkWidth ChunkDepth : Int) (playerXZ lastPlayerLoadPosition : ℚ × ℚ) :
    Bool :=
  floatGt (distance2 playerXZ lastPlayerLoadPosition)
    (roundFloat32 ((ChunkWidth * ChunkDepth : Int) : ℚ))

/-- The function `World::update`, from the daylight cycle on. `playerPosition` is the
position of the player transform after the systems have run. -/
def update (ChunkWidth ChunkDepth : Int) (s : State) (playerPosition : Vec3) :
    State × FrameOutput :=
  let worldTime := advanceWorldTime s.doDaylightCycle s.worldTime
  let moved : Bool :=
    radiusExceeded ChunkWidth ChunkDepth (playerPosition.x, playerPosition.z)
      s.lastPlayerLoadPosition
  ({ s with
     worldTime := worldTime
     lastPlayerLoadPosition :=
       if moved then (playerPosition.x, playerPosition.z) else s.lastPlayerLoadPosition },
   { sunXRotation := sunXRotation worldTime
     uIsDay := uIsDay worldTime
     playerPositionInChunkCoords := toChunkCoords playerPosition
     checkChunkRadius := if moved then some playerPosition else none })

/-- The function `World::getWorldDataFilepath`. -/
def getWorldDataFilepath (worldSavePath : String) : String :=
  worldSavePath ++ "/world.bin"

/-- The function `World::serialize`: in single-player mode writes `seed` to the world
data file; nothing happens when the file cannot be opened, or in client mode. -/
def serialize (env : Env) (fs : FileSystem) (s : State) : FileSystem :=
  if !s.isClient then
    match fs.writeFile (getWorldDataFilepath s.savePath) (uint32Bytes env.bigEndian s.seed) with
    | none => fs
    | some fs2 => fs2
  else fs

/-- The function `World::deserialize`: the returned flag and the state afterwards. The
value that `fread` returns is not looked at. -/
def deserialize (env : Env) (fs : FileSystem) (s : State) : Bool × State :=
  if !s.isClient then
    match fs.openRead (getWorldDataFilepath s.savePath) with
    | none => (false, s)
    | some file => (true, { s with seed := (fread_uint32 env.bigEndian file s.seed).2 })
  else (false, s)

/-- How a call of `World::init` ends, as far as the seed is concerned. -/
inductive InitOutcome
  /-- The assertion `World save path must not be empty.` failed. -/
  | assertionFailed
  /-- The branch `Could not load world. World.bin has been corrupted or does not exist.`
  was taken and `init` returned early. -/
  | couldNotLoadWorld (s : State)
  /-- Single-player mode went on to set up the player; `generated` tells whether a seed
  was generated. -/
  | singlePlayer (s : State) (generated : Bool)
  /-- Client mode. -/
  | client (s : State)
  deriving DecidableEq

/-- The function `World::init`, the part that decides the save path and the seed. -/
def init (env : Env) (fs : FileSystem) (s : State) (hostname : String) (port : Int) :
    InitOutcome :=
  let s1 := { s with isClient := false, lastPlayerLoadPosition := (-145, 55) }
  if hostname ≠ "" ∧ port ≠ 0 then
    .client { s1 with isClient := true
                      lastPlayerLoadPosition := (spawnPosition.x, spawnPosition.z) }
  else if s1.savePath = "" then .assertionFailed
  else
    let savePath := env.joinPath env.worldsRootPath s1.savePath
    let s2 := { s1 with savePath := savePath, chunkSavePath := env.joinPath savePath "chunks" }
    let path := getWorldDataFilepath s2.savePath
    if fs.isFile path ∧ (deserialize env fs s2).1 = false then
      .couldNotLoadWorld (deserialize env fs s2).2
    else
      let s3 := if fs.isFile path then (deserialize env fs s2).2 else s2
      let generated : Bool := decide (s3.seed = UINT32_MAX)
      let s4 := if generated then { s3 with seed := env.freshSeed } else s3
      .singlePlayer { s4 with lastPlayerLoadPosition := (spawnPosition.x, spawnPosition.z) }
        generated

/-- One frame of the game loop, as far as `World` sees it: the value that the rest of the
program leaves in `doDaylightCycle` before the frame, and the position of the player
transform. -/
structure Frame where
  doDaylightCycle : Bool
  playerPosition : Vec3

/-- A run of the game loop: one call of `World::update` per frame. -/
def updates (ChunkWidth ChunkDepth : Int) : List Frame → State → State
  | [], s => s
  | f :: rest, s =>
    updates ChunkWidth ChunkDepth rest
      (update ChunkWidth ChunkDepth { s with doDaylightCycle := f.doDaylightCycle }
        f.playerPosition).1

/-! ### Concrete inputs -/

/-- A little-endian machine whose worlds live under `worlds` and whose next seed draw is 7. -/
def sampleEnv : Env :=
  { worldsRootPath := "worlds"
    joinPath := fun a b => a ++ "/" ++ b
    bigEndian := false
    freshSeed := 7 }

/-- The state of a fresh process: the initial values of the namespace-level variables. -/
def initialState : State :=
  { savePath := ""
    seed := UINT32_MAX
    chunkSavePath := ""
    worldTime := 0
    doDaylightCycle := false
    lastPlayerLoadPosition := (0, 0)
    isClient := false }

/-- A file system that holds nothing but `content` as `worlds/w/world.bin`. -/
def worldBinOnly (content : List Byte) : FileSystem :=
  { files := fun p => if p = "worlds/w/world.bin" then some content else none
    denied := fun _ => false }

end World

/-! ## `ChunkManager`: block access -/

namespace ChunkManager

/-- Modelled from the spec: a block (§3), an opaque identifier plus the flags for
transparency and light emission (`world/BlockMap.h` is not among the sources;
`World::isPlayerUnderwater` reads the field `id`). -/
structure Block where
  id : Nat
  isTransparent : Bool
  isLightSource : Bool
  deriving DecidableEq

/-- Modelled from the spec: the sentinel `air/unknown` block (§4.3). -/
def airBlock : Block := ⟨0, true, false⟩

/-- Modelled from the spec: a unit of queued work (§3), with its target coordinates. -/
inductive Task
  | CreateRegion (coords : Int × Int)
  | LoadBlockData (coords : Int × Int)
  | Tesselate (coords : Int × Int) (level : Int)
  | SaveRegion (coords : Int × Int)
  | RecalculateLighting (coords : Int × Int) (blockPosition : Int × Int × Int)
  deriving DecidableEq

/-- Modelled from the spec: a region (§3). Its block array exists exactly when its
block data is loaded; a region without one is the placeholder `known but not
resident`. Each level has the state of its sub-region. -/
structure Region where
  blocks : Option (Int × Int × Int → Block)
  subChunkStates : Int → SubChunkState

/-- Modelled from the spec: the region directory (§2) and the task queue (§4.1). -/
structure Manager where
  directory : Int × Int → Option Region
  tasks : List Task

/-- The cell of a world position inside the region `coords`: the offset from the corner
of the region, and the height. -/
def localCell (coords : Int × Int) (worldPosition : Vec3) : Int × Int × Int :=
  (⌊worldPosition.x⌋ - 16 * coords.1,
   ⌊worldPosition.y⌋,
   ⌊worldPosition.z⌋ - 16 * coords.2)

/-- Modelled from the spec: the translation of a world coordinate into a region
coordinate plus local offset (§4.3), the first by `World::toChunkCoords`. A request
outside the representable coordinate range, that is without `int` region coordinates or
outside the fixed height `ChunkHeight` of a region (§3), is a programming error of the
caller and ends in a fatal assertion, `none`. -/
def locate (ChunkHeight : Int) (worldPosition : Vec3) :
    Option ((Int × Int) × (Int × Int × Int)) :=
  match World.toChunkCoords worldPosition with
  | none => none
  | some coords =>
    if 0 ≤ ⌊worldPosition.y⌋ ∧ ⌊worldPosition.y⌋ < ChunkHeight then
      some (coords, localCell coords worldPosition)
    else none

/-- Modelled from the spec: the regions next to `coords` whose mesh depends on the cell
(§4.3: a cell on a region boundary affects the adjacent region). -/
def neighbourRegions (coords : Int × Int) (cell : Int × Int × Int) : List (Int × Int) :=
  (if cell.1 = 0 then [(coords.1 - 1, coords.2)] else []) ++
  (if cell.1 = 15 then [(coords.1 + 1, coords.2)] else []) ++
  (if cell.2.2 = 0 then [(coords.1, coords.2 - 1)] else []) ++
  (if cell.2.2 = 15 then [(coords.1, coords.2 + 1)] else [])

/-- The block array of the region `coords`, when the region is resident. -/
def residentBlocks (m : Manager) (coords : Int × Int) : Option (Int × Int × Int → Block) :=
  (m.directory coords).bind (fun region => region.blocks)

/-- The states of the sub-regions of `coords`; a region that is not in the directory
has none requested. -/
def subChunkStatesOf (m : Manager) (coords : Int × Int) : Int → SubChunkState :=
  match m.directory coords with
  | some region => region.subChunkStates
  | none => fun _ => SubChunkState.Unloaded

/-- Modelled from the spec: faulting in the owning region (§4.3). A region that is
absent, or present without block array, becomes resident with the block data that
generation or disk load gives it (§3, §6), `loadBlockData`; a resident region is left
alone. -/
def faultIn (loadBlockData : Int × Int → Int × Int × Int → Block) (m : Manager)
    (coords : Int × Int) : Manager :=
  { m with
    directory := fun c =>
      if c = coords then
        some { blocks := some ((residentBlocks m coords).getD (loadBlockData coords))
               subChunkStates := subChunkStatesOf m coords }
      else m.directory c }

/-- Modelled from the spec: `ChunkManager::setBlock` (§4.3; `ChunkManager.cpp` is not
among the sources). The owning region is faulted in if absent, the cell of its block
array is written, then the lighting task and the tesselation tasks of the owning
sub-region and of the adjacent regions are enqueued, and the owning sub-region is
notified of the edit. `SubChunkHeight` is the height of one level. -/
def setBlock (ChunkHeight SubChunkHeight : Int)
    (loadBlockData : Int × Int → Int × Int × Int → Block) (m : Manager)
    (worldPosition : Vec3) (newBlock : Block) : Option Manager :=
  match locate ChunkHeight worldPosition with
  | none => none
  | some (coords, cell) =>
    let m1 := faultIn loadBlockData m coords
    let blocks := (residentBlocks m coords).getD (loadBlockData coords)
    let level := cell.2.1 / SubChunkHeight
    some { directory := fun c =>
             if c = coords then
               some { blocks := some (fun k => if k = cell then newBlock else blocks k)
                      subChunkStates := fun l =>
                        if l = level then
                          subChunkStep SubChunkEvent.blockEdited (subChunkStatesOf m coords l)
                        else subChunkStatesOf m coords l }
             else m1.directory c
           tasks := m1.tasks
             ++ [Task.RecalculateLighting coords
                   (⌊worldPosition.x⌋, ⌊worldPosition.y⌋, ⌊worldPosition.z⌋),
                 Task.Tesselate coords level]
             ++ (neighbourRegions coords cell).map (fun c => Task.Tesselate c level) }

/-- Modelled from the spec: `ChunkManager::removeBlock` (§4.3), a write of the sentinel. -/
def removeBlock (ChunkHeight SubChunkHeight : Int)
    (loadBlockData : Int × Int → Int × Int × Int → Block) (m : Manager)
    (worldPosition : Vec3) : Option Manager :=
  setBlock ChunkHeight SubChunkHeight loadBlockData m worldPosition airBlock

end ChunkManager

/-! ## `CreateWorldMenu.cpp` -/

namespace CreateWorldMenu

/-- The variables of `CreateWorldMenu` together with `World::savePath`, which the menu
writes. -/
structure State where
  isCreatingNewWorld : Bool
  selectedWorldIndex : Int
  savePath : String
  deriving DecidableEq

/-- What the user does during one frame: the results of the `Gui` calls of that frame
(`gui/Gui.h` is not among the sources). -/
structure Frame where
  /-- The stems of the entries of `AppData::worldsRootPath`, in iteration order. -/
  worlds : List String
  /-- The entry at this index is clicked: `Gui::worldSaveItem` returns true for it. -/
  worldItemClicked : Nat → Bool
  /-- The `Load World` button is clicked. -/
  loadWorldClicked : Bool
  /-- The `New World` button is clicked. -/
  newWorldClicked : Bool
  /-- The content of `worldSaveTitle` when `Gui::input` returns true, `none` when it
  returns false. -/
  worldNameInput : Option String
  /-- The `Create World` button is clicked. -/
  createWorldClicked : Bool

/-- The function `Gui::textureButton(button, isDisabled)` (`gui/Gui.h` is not among the
sources): the button reports the click of the user, and no click while it is disabled. -/
def textureButton (clicked isDisabled : Bool) : Bool :=
  clicked && !isDisabled

/-- The function `CreateWorldMenu::init`; `World::savePath` is not touched. -/
def init (savePath : String) : State :=
  { isCreatingNewWorld := false, selectedWorldIndex := -1, savePath := savePath }

/-- The loop of `showSavedWorlds` over the saved worlds, from index `i` on. -/
def selectWorlds (f : Frame) : List String → Nat → State → State
  | [], _, s => s
  | worldDataPath :: rest, i, s =>
    let s1 :=
      if f.worldItemClicked i then
        { s with savePath := worldDataPath, selectedWorldIndex := (i : Int) }
      else s
    selectWorlds f rest (i + 1) s1

/-- The function `CreateWorldMenu::showSavedWorlds`: the state afterwards, and whether
`Scene::changeScene(SceneType::SinglePlayerGame)` was called. -/
def showSavedWorlds (f : Frame) (s : State) : State × Bool :=
  let s1 := selectWorlds f f.worlds 0 s
  let changeScene := textureButton f.loadWorldClicked (s1.selectedWorldIndex == -1)
  let s2 := if textureButton f.newWorldClicked false then
    { s1 with isCreatingNewWorld := true } else s1
  (s2, changeScene)

/-- The function `CreateWorldMenu::showCreateNewWorldMenu`: the state afterwards, and whether
`Scene::changeScene(SceneType::SinglePlayerGame)` was called. -/
def showCreateNewWorldMenu (f : Frame) (s : State) : State × Bool :=
  let s1 := match f.worldNameInput with
    | some worldSaveTitle => { s with savePath := worldSaveTitle }
    | none => s
  (s1, textureButton f.createWorldClicked false)

/-- The function `CreateWorldMenu::update`. -/
def update (f : Frame) (s : State) : State × Bool :=
  if s.isCreatingNewWorld then showCreateNewWorldMenu f s else showSavedWorlds f s

/-- A frame in which the user does nothing, with one saved world `w`. -/
def idleFrame : Frame :=
  { worlds := ["w"]
    worldItemClicked := fun _ => false
    loadWorldClicked := false
    newWorldClicked := false
    worldNameInput := none
    createWorldClicked := false }

end CreateWorldMenu

/-! ## Theorems -/

/-- C1: `SubChunkState` has exactly the nine states of the pipeline, their numeric
values are 0..8 in the traversal order, and `a` comes before `b` in the pipeline
exactly when the value of `a` is below the value of `b`. -/
theorem subChunkState_values_follow_traversalOrder :
    (∀ s : SubChunkState, s ∈ SubChunkState.traversalOrder) ∧
    SubChunkState.traversalOrder.Nodup ∧
    SubChunkState.traversalOrder.length = 9 ∧
    SubChunkState.traversalOrder.map SubChunkState.val = [0, 1, 2, 3, 4, 5, 6, 7, 8] ∧
    (∀ a b : SubChunkState, SubChunkState.comesBefore a b ↔ a.val < b.val) := by
  refine ⟨?_, by decide, rfl, rfl, ?_⟩
  · intro s; cases s <;> decide
  · intro a b; cases a <;> cases b <;> decide

/-- Decoding the four bytes of a 32-bit value gives the value back. -/
theorem uint32OfBytes_uint32Bytes (bigEndian : Bool) (v : Nat) (h : v < 2 ^ 32) :
    uint32OfBytes bigEndian (uint32Bytes bigEndian v) = v := by
  cases bigEndian <;> simp [uint32OfBytes, uint32Bytes] <;> omega

/-- Reading a file that holds the four bytes of `v` reads one element, with value `v`. -/
theorem fread_uint32_uint32Bytes (bigEndian : Bool) (v old : Nat) (h : v < 2 ^ 32) :
    fread_uint32 bigEndian (uint32Bytes bigEndian v) old = (1, v) := by
  have hlen : (uint32Bytes bigEndian v).length = 4 := by
    cases bigEndian <;> simp [uint32Bytes]
  have htake : (uint32Bytes bigEndian v).take 4 = uint32Bytes bigEndian v :=
    List.take_of_length_le (by omega)
  simp only [fread_uint32, htake, hlen]
  have hdrop : (uint32Bytes bigEndian old).drop 4 = [] := by
    cases bigEndian <;> simp [uint32Bytes]
  simp [hdrop, uint32OfBytes_uint32Bytes bigEndian v h]

/-- C5: in single-player mode, for a 32-bit seed, `World::serialize` (when the file can
be opened) leaves a `world.bin` that consists of exactly the 4 bytes of the seed, and
`World::deserialize` on that file returns true and sets `World::seed` to that seed. -/
theorem serialize_deserialize_roundtrip (env : Env) (fs : FileSystem) (s t : World.State)
    (hs : s.isClient = false) (ht : t.isClient = false) (hpath : t.savePath = s.savePath)
    (hseed : s.seed < 2 ^ 32)
    (hopen : fs.denied (World.getWorldDataFilepath s.savePath) = false) :
    (World.serialize env fs s).files (World.getWorldDataFilepath s.savePath)
        = some (uint32Bytes env.bigEndian s.seed) ∧
    (uint32Bytes env.bigEndian s.seed).length = 4 ∧
    World.deserialize env (World.serialize env fs s) t = (true, { t with seed := s.seed }) := by
  have hlen : (uint32Bytes env.bigEndian s.seed).length = 4 := by
    cases env.bigEndian <;> simp [uint32Bytes]
  refine ⟨?_, hlen, ?_⟩
  · simp [World.serialize, FileSystem.writeFile, hs, hopen]
  · simp [World.serialize, World.deserialize, FileSystem.writeFile, FileSystem.openRead,
      hs, ht, hpath, hopen, fread_uint32_uint32Bytes env.bigEndian s.seed t.seed hseed]

/-- Witness of C5: seed 1234 saved for the world `worlds/w` and loaded again. -/
theorem serialize_deserialize_roundtrip_witness :
    (World.deserialize World.sampleEnv
        (World.serialize World.sampleEnv (World.worldBinOnly [])
          { World.initialState with savePath := "worlds/w", seed := 1234 })
        { World.initialState with savePath := "worlds/w" }).2.seed = 1234 :=
  congrArg (fun r => r.2.seed)
    (serialize_deserialize_roundtrip World.sampleEnv (World.worldBinOnly [])
      { World.initialState with savePath := "worlds/w", seed := 1234 }
      { World.initialState with savePath := "worlds/w" }
      rfl rfl rfl (by decide) rfl).2.2

/-- The function `World::deserialize` in single-player mode, on a file that opens: it
returns true, whatever the file holds. -/
theorem deserialize_of_file (env : Env) (fs : FileSystem) (s : World.State) (file : List Byte)
    (hs : s.isClient = false)
    (hopen : fs.denied (World.getWorldDataFilepath s.savePath) = false)
    (hfile : fs.files (World.getWorldDataFilepath s.savePath) = some file) :
    World.deserialize env fs s
      = (true, { s with seed := (fread_uint32 env.bigEndian file s.seed).2 }) := by
  simp [World.deserialize, FileSystem.openRead, hs, hopen, hfile]

/-- The function `World::init` in single-player mode when the world data file exists and opens. -/
theorem init_of_file (env : Env) (fs : FileSystem) (s : World.State) (file : List Byte)
    (hpath : s.savePath ≠ "")
    (hopen : fs.denied
      (World.getWorldDataFilepath (env.joinPath env.worldsRootPath s.savePath)) = false)
    (hfile : fs.files
      (World.getWorldDataFilepath (env.joinPath env.worldsRootPath s.savePath)) = some file) :
    World.init env fs s "" 0
      = World.InitOutcome.singlePlayer
          { s with
            savePath := env.joinPath env.worldsRootPath s.savePath
            chunkSavePath := env.joinPath (env.joinPath env.worldsRootPath s.savePath) "chunks"
            isClient := false
            lastPlayerLoadPosition := (-145, 55)
            seed := if (fread_uint32 env.bigEndian file s.seed).2 = UINT32_MAX
              then env.freshSeed else (fread_uint32 env.bigEndian file s.seed).2 }
          (decide ((fread_uint32 env.bigEndian file s.seed).2 = UINT32_MAX)) := by
  have hd := deserialize_of_file env fs
    { s with
      isClient := false
      lastPlayerLoadPosition := (-145, 55)
      savePath := env.joinPath env.worldsRootPath s.savePath
      chunkSavePath := env.joinPath (env.joinPath env.worldsRootPath s.savePath) "chunks" }
    file rfl hopen hfile
  unfold World.init
  simp only [hd, FileSystem.isFile, hfile]
  by_cases hmax : (fread_uint32 env.bigEndian file s.seed).2 = UINT32_MAX
  · simp [hpath, hmax, World.spawnPosition]
  · simp [hpath, hmax, World.spawnPosition]

/-- The function `World::init` in single-player mode when there is no world data file. -/
theorem init_of_no_file (env : Env) (fs : FileSystem) (s : World.State)
    (hpath : s.savePath ≠ "")
    (hfile : fs.files
      (World.getWorldDataFilepath (env.joinPath env.worldsRootPath s.savePath)) = none) :
    World.init env fs s "" 0
      = World.InitOutcome.singlePlayer
          { s with
            savePath := env.joinPath env.worldsRootPath s.savePath
            chunkSavePath := env.joinPath (env.joinPath env.worldsRootPath s.savePath) "chunks"
            isClient := false
            lastPlayerLoadPosition := (-145, 55)
            seed := if s.seed = UINT32_MAX then env.freshSeed else s.seed }
          (decide (s.seed = UINT32_MAX)) := by
  unfold World.init
  simp only [FileSystem.isFile, hfile]
  by_cases hmax : s.seed = UINT32_MAX
  · simp [hpath, hmax, World.spawnPosition]
  · simp [hpath, hmax, World.spawnPosition]

/-- C7 (the code at the failing input): `world.bin` exists and is empty. No seed can be
read from it, yet `World::deserialize` returns true and leaves the seed as it was, and
`World::init` does not take its `Could not load world` branch: it goes on in
single-player mode and generates a seed. -/
theorem deserialize_empty_world_bin_returns_true :
    (World.worldBinOnly []).isFile "worlds/w/world.bin" = true ∧
    World.deserialize World.sampleEnv (World.worldBinOnly [])
        { World.initialState with savePath := "worlds/w" }
      = (true, { World.initialState with savePath := "worlds/w" }) ∧
    World.init World.sampleEnv (World.worldBinOnly [])
        { World.initialState with savePath := "w" } "" 0
      = World.InitOutcome.singlePlayer
          { World.initialState with
            savePath := "worlds/w"
            chunkSavePath := "worlds/w/chunks"
            seed := 7
            lastPlayerLoadPosition := (-145, 55) }
          true := by
  have hread : (fread_uint32 false [] UINT32_MAX).2 = UINT32_MAX := by
    simp [fread_uint32, uint32OfBytes_uint32Bytes, UINT32_MAX]
  refine ⟨by simp [FileSystem.isFile, World.worldBinOnly], ?_, ?_⟩
  · rw [deserialize_of_file World.sampleEnv (World.worldBinOnly [])
      { World.initialState with savePath := "worlds/w" } [] rfl rfl (by decide)]
    simp [World.sampleEnv, World.initialState, hread]
  · rw [init_of_file World.sampleEnv (World.worldBinOnly [])
      { World.initialState with savePath := "w" } [] (by decide) rfl (by decide)]
    simp [World.sampleEnv, World.initialState, hread]

/-- C8 (counterexample): `world.bin` stores the seed `UINT32_MAX` (four bytes `0xFF`).
After `World::init` the world seed is not the stored one but the freshly generated 7,
and a seed was generated although one was loaded. -/
theorem init_replaces_stored_seed_UINT32_MAX :
    (World.worldBinOnly [255, 255, 255, 255]).files "worlds/w/world.bin"
      = some (uint32Bytes World.sampleEnv.bigEndian UINT32_MAX) ∧
    World.deserialize World.sampleEnv (World.worldBinOnly [255, 255, 255, 255])
        { World.initialState with savePath := "worlds/w", seed := 5 }
      = (true, { World.initialState with savePath := "worlds/w", seed := UINT32_MAX }) ∧
    World.init World.sampleEnv (World.worldBinOnly [255, 255, 255, 255])
        { World.initialState with savePath := "w", seed := 5 } "" 0
      = World.InitOutcome.singlePlayer
          { World.initialState with
            savePath := "worlds/w"
            chunkSavePath := "worlds/w/chunks"
            seed := 7
            lastPlayerLoadPosition := (-145, 55) }
          true := by
  have hread : (fread_uint32 false [255, 255, 255, 255] 5).2 = UINT32_MAX := by
    decide
  refine ⟨by simp [World.worldBinOnly, World.sampleEnv, uint32Bytes, UINT32_MAX], ?_, ?_⟩
  · rw [deserialize_of_file World.sampleEnv (World.worldBinOnly [255, 255, 255, 255])
      { World.initialState with savePath := "worlds/w", seed := 5 } [255, 255, 255, 255]
      rfl rfl (by decide)]
    simp [World.sampleEnv, World.initialState, hread]
  · rw [init_of_file World.sampleEnv (World.worldBinOnly [255, 255, 255, 255])
      { World.initialState with savePath := "w", seed := 5 } [255, 255, 255, 255]
      (by decide) rfl (by decide)]
    simp [World.sampleEnv, World.initialState, hread]

/-- C8 (amended): `World::init` in single-player mode takes the seed stored in
`world.bin` (without a `world.bin`: the current value of `World::seed`) and keeps it
unless it equals `UINT32_MAX`, the marker of `no seed`; a seed is generated exactly
when that value is `UINT32_MAX`. So every stored seed other than `UINT32_MAX` is the
world seed after `init`. -/
theorem init_keeps_seed_unless_UINT32_MAX (env : Env) (fs : FileSystem) (s : World.State)
    (stored : Option Nat)
    (hpath : s.savePath ≠ "")
    (hstored : ∀ v ∈ stored, v < 2 ^ 32)
    (hopen : fs.denied
      (World.getWorldDataFilepath (env.joinPath env.worldsRootPath s.savePath)) = false)
    (hfile : fs.files
      (World.getWorldDataFilepath (env.joinPath env.worldsRootPath s.savePath))
        = stored.map (uint32Bytes env.bigEndian)) :
    World.init env fs s "" 0
      = World.InitOutcome.singlePlayer
          { s with
            savePath := env.joinPath env.worldsRootPath s.savePath
            chunkSavePath := env.joinPath (env.joinPath env.worldsRootPath s.savePath) "chunks"
            isClient := false
            lastPlayerLoadPosition := (-145, 55)
            seed := if stored.getD s.seed = UINT32_MAX
              then env.freshSeed else stored.getD s.seed }
          (decide (stored.getD s.seed = UINT32_MAX)) := by
  cases stored with
  | none => exact init_of_no_file env fs s hpath hfile
  | some v =>
    have hv : v < 2 ^ 32 := hstored v rfl
    have h := init_of_file env fs s (uint32Bytes env.bigEndian v) hpath hopen hfile
    rw [fread_uint32_uint32Bytes env.bigEndian v s.seed hv] at h
    exact h

/-- Witness of C8 (amended): `world.bin` stores the seed 1234; after `World::init` the
world seed is 1234 and no seed was generated. -/
theorem init_keeps_seed_unless_UINT32_MAX_witness :
    World.init World.sampleEnv (World.worldBinOnly (uint32Bytes false 1234))
        { World.initialState with savePath := "w" } "" 0
      = World.InitOutcome.singlePlayer
          { World.initialState with
            savePath := "worlds/w"
            chunkSavePath := "worlds/w/chunks"
            seed := 1234
            lastPlayerLoadPosition := (-145, 55) }
          false := by
  have h := init_keeps_seed_unless_UINT32_MAX World.sampleEnv
    (World.worldBinOnly (uint32Bytes false 1234))
    { World.initialState with savePath := "w" } (some 1234)
    (by decide) (by intro v hv; cases hv; decide) rfl (by decide)
  rw [h]
  simp [World.sampleEnv, World.initialState, UINT32_MAX]

/-- C9 (the code at the failing input): from `CreateWorldMenu::init` with an empty
`World::savePath`, a click on `New World` and then a click on `Create World`, with no
name typed, calls `Scene::changeScene(SceneType::SinglePlayerGame)` while
`World::savePath` is still empty, and `World::init` then fails its assertion. -/
theorem createWorld_click_changes_scene_with_empty_savePath :
    CreateWorldMenu.update { CreateWorldMenu.idleFrame with createWorldClicked := true }
        (CreateWorldMenu.update { CreateWorldMenu.idleFrame with newWorldClicked := true }
          (CreateWorldMenu.init "")).1
      = ({ isCreatingNewWorld := true, selectedWorldIndex := -1, savePath := "" }, true) ∧
    World.init World.sampleEnv (World.worldBinOnly [])
        { World.initialState with savePath := "" } "" 0
      = World.InitOutcome.assertionFailed := by
  refine ⟨by decide, ?_⟩
  simp [World.init, World.initialState]

/-- C10 (the code at failing inputs): at noon, `worldTime = 1200`, the sun angle is 95
and `uIsDay` is false although 1200 lies in the daytime range 600..1800; at
`worldTime = 0` the angle is 240 and `uIsDay` is true; at `worldTime = 600` the angle is
405. -/
theorem uIsDay_false_at_noon_true_at_midnight :
    World.sunXRotation 1200 = 95 ∧ World.uIsDay 1200 = false ∧
    World.sunXRotation 0 = 240 ∧ World.uIsDay 0 = true ∧
    World.sunXRotation 600 = 405 ∧ World.uIsDay 600 = false ∧
    (World.update 16 16 { World.initialState with worldTime := 1200 }
      World.spawnPosition).2.uIsDay = false := by
  have h1200 : World.sunXRotation 1200 = 95 := by
    norm_num [World.sunXRotation, floatToInt, mapRange]
  have h0 : World.sunXRotation 0 = 240 := by
    norm_num [World.sunXRotation, floatToInt, mapRange]
  have hceil : ⌈(-45 : ℚ)⌉ = -45 := by
    rw [Int.ceil_eq_iff]; norm_num
  have h600 : World.sunXRotation 600 = 405 := by
    norm_num [World.sunXRotation, floatToInt, mapRange, hceil]
  refine ⟨h1200, ?_, h0, ?_, h600, ?_, ?_⟩
  · simp [World.uIsDay, h1200]
  · simp [World.uIsDay, h0]
  · simp [World.uIsDay, h600]
  · simp [World.update, World.advanceWorldTime, World.initialState, World.uIsDay, h1200]

/-- The conversion to `int` of a fraction of integers: the quotient, rounded toward zero. -/
theorem floatToInt_div (a : Int) (d : Nat) :
    floatToInt ((a : ℚ) / (d : ℚ)) = if 0 ≤ a then a / (d : Int) else -((-a) / (d : Int)) := by
  rcases Nat.eq_zero_or_pos d with hd | hd
  · subst hd
    simp [floatToInt]
  · have hdq : (0 : ℚ) < (d : ℚ) := by exact_mod_cast hd
    unfold floatToInt
    by_cases ha : 0 ≤ a
    · have hq : (0 : ℚ) ≤ (a : ℚ) / (d : ℚ) :=
        div_nonneg (by exact_mod_cast ha) hdq.le
      rw [if_pos hq, if_pos ha, Rat.floor_intCast_div_natCast]
    · have ha2 : a < 0 := not_le.mp ha
      have hq : ¬ (0 : ℚ) ≤ (a : ℚ) / (d : ℚ) := by
        rw [not_le]
        exact div_neg_of_neg_of_pos (by exact_mod_cast ha2) hdq
      rw [if_neg hq, if_neg ha]
      have hneg : (a : ℚ) / (d : ℚ) = -(((-a : Int) : ℚ) / (d : ℚ)) := by
        push_cast; ring
      rw [hneg, Int.ceil_neg, Rat.floor_intCast_div_natCast]

/-- The sun angle in integer arithmetic: the three interpolations of `World::update` as
quotients of integers. -/
theorem sunXRotation_eq (t : Int) :
    World.sunXRotation t =
      if 600 ≤ t ∧ t ≤ 1800 then
        (if floatToInt (((7 * t - 5550 : Int) : ℚ) / ((30 : Nat) : ℚ)) < 0
          then 360 - floatToInt (((7 * t - 5550 : Int) : ℚ) / ((30 : Nat) : ℚ))
          else floatToInt (((7 * t - 5550 : Int) : ℚ) / ((30 : Nat) : ℚ)))
      else if t > 1800 then floatToInt (((t + 26400 : Int) : ℚ) / ((120 : Nat) : ℚ))
      else floatToInt (((t + 1920 : Int) : ℚ) / ((8 : Nat) : ℚ)) := by
  have h1 : mapRange (t : ℚ) 600 1800 (-45) 235 = ((7 * t - 5550 : Int) : ℚ) / ((30 : Nat) : ℚ) := by
    unfold mapRange; push_cast; ring
  have h2 : mapRange (t : ℚ) 1800 2400 235 240 = ((t + 26400 : Int) : ℚ) / ((120 : Nat) : ℚ) := by
    unfold mapRange; push_cast; ring
  have h3 : mapRange (t : ℚ) 0 600 240 315 = ((t + 1920 : Int) : ℚ) / ((8 : Nat) : ℚ) := by
    unfold mapRange; push_cast; ring
  unfold World.sunXRotation
  simp only [h1, h2, h3]

/-- The extent of the angles that `World::update` computes: during one day the sun angle
is never negative, and it is below 360 except for the times 600..788. -/
theorem sunXRotation_lt_360_iff (t : Int) (h0 : 0 ≤ t) (h1 : t < 2400) :
    0 ≤ World.sunXRotation t ∧ (World.sunXRotation t < 360 ↔ ¬ (600 ≤ t ∧ t ≤ 788)) := by
  rw [sunXRotation_eq]
  simp only [floatToInt_div]
  push_cast
  split_ifs <;> omega

/-- C11 (the code at the failing input): at `worldTime = 600` the interpolated angle is
-45 and the wrap computes `360 - (-45)`, so `sunXRotation` is 405, not below 360; the
same happens in the frame that moves `worldTime` from 590 to 600, and at
`worldTime = 780` the angle is 363. -/
theorem sunXRotation_at_600_not_normalised :
    World.sunXRotation 600 = 405 ∧ ¬ World.sunXRotation 600 < 360 ∧
    World.sunXRotation 780 = 363 ∧
    (World.update 16 16 { World.initialState with worldTime := 590, doDaylightCycle := true }
      World.spawnPosition).2.sunXRotation = 405 := by
  have h600 : World.sunXRotation 600 = 405 := by
    rw [sunXRotation_eq]; simp only [floatToInt_div]; decide
  have h780 : World.sunXRotation 780 = 363 := by
    rw [sunXRotation_eq]; simp only [floatToInt_div]; decide
  have hstep : World.advanceWorldTime true 590 = 600 := by decide
  refine ⟨h600, by rw [h600]; decide, h780, ?_⟩
  simp only [World.update, World.initialState, hstep, h600]

/-- One call of `World::update` and the world time: inside a day the C++ remainder is the
mathematical one. -/
theorem update_worldTime (ChunkWidth ChunkDepth : Int) (s : World.State) (p : Vec3)
    (h0 : 0 ≤ s.worldTime) :
    (World.update ChunkWidth ChunkDepth s p).1.worldTime =
      (if s.doDaylightCycle then (s.worldTime + 10) % 2400 else s.worldTime) := by
  have hmod : Int.tmod (s.worldTime + 10) 2400 = (s.worldTime + 10) % 2400 :=
    Int.tmod_eq_emod (by omega) (by omega)
  simp only [World.update, World.advanceWorldTime, hmod]

/-- A run keeps the world time inside the day, and a multiple of 10 if it was one. -/
theorem updates_worldTime_range (ChunkWidth ChunkDepth : Int) (frames : List World.Frame) :
    ∀ s : World.State, 0 ≤ s.worldTime → s.worldTime < 2400 →
      0 ≤ (World.updates ChunkWidth ChunkDepth frames s).worldTime ∧
      (World.updates ChunkWidth ChunkDepth frames s).worldTime < 2400 ∧
      (s.worldTime % 10 = 0 →
        (World.updates ChunkWidth ChunkDepth frames s).worldTime % 10 = 0) := by
  induction frames with
  | nil => intro s h0 h1; exact ⟨h0, h1, fun h => h⟩
  | cons f rest ih =>
    intro s h0 h1
    have hstep := update_worldTime ChunkWidth ChunkDepth
      { s with doDaylightCycle := f.doDaylightCycle } f.playerPosition h0
    have hr := ih (World.update ChunkWidth ChunkDepth
      { s with doDaylightCycle := f.doDaylightCycle } f.playerPosition).1
    simp only [World.updates]
    rw [hstep] at hr
    cases hf : f.doDaylightCycle
    · simp only [hf] at hr
      have hr2 := hr (by simpa using h0) (by simpa using h1)
      exact ⟨hr2.1, hr2.2.1, fun h => hr2.2.2 (by simpa using h)⟩
    · simp only [hf] at hr
      have hr2 := hr (by simp; omega) (by simp; omega)
      exact ⟨hr2.1, hr2.2.1, fun h => hr2.2.2 (by simp; omega)⟩

/-- A run with the daylight cycle on in every frame adds 10 per frame, modulo the day. -/
theorem updates_worldTime_cycle (ChunkWidth ChunkDepth : Int) (frames : List World.Frame) :
    ∀ s : World.State, 0 ≤ s.worldTime → s.worldTime < 2400 →
      (∀ f ∈ frames, f.doDaylightCycle = true) →
      (World.updates ChunkWidth ChunkDepth frames s).worldTime
        = (s.worldTime + 10 * (frames.length : Int)) % 2400 := by
  induction frames with
  | nil =>
    intro s h0 h1 _
    simp only [World.updates, List.length_nil]
    omega
  | cons f rest ih =>
    intro s h0 h1 hall
    have hf : f.doDaylightCycle = true := hall f (List.mem_cons_self f rest)
    have hstep := update_worldTime ChunkWidth ChunkDepth
      { s with doDaylightCycle := f.doDaylightCycle } f.playerPosition h0
    simp only [hf, if_true] at hstep
    have hr := ih (World.update ChunkWidth ChunkDepth
      { s with doDaylightCycle := f.doDaylightCycle } f.playerPosition).1
      (by rw [hf, hstep]; omega) (by rw [hf, hstep]; omega)
      (fun g hg => hall g (List.mem_cons_of_mem f hg))
    simp only [World.updates]
    rw [hr, hf, hstep]
    simp only [List.length_cons]
    push_cast
    omega

/-- C12: if `0 ≤ worldTime < 2400` before `World::update`, then afterwards `worldTime`
is `(worldTime + 10) mod 2400` when `doDaylightCycle` is set and unchanged when it is
not, and it is again inside `0..2399`, after every update of a run; from the initial
state it is always a multiple of 10; and with the daylight cycle on it is back at its
value after 240 updates and not after fewer. -/
theorem worldTime_stays_in_day (ChunkWidth ChunkDepth : Int) (s : World.State) (p : Vec3)
    (frames : List World.Frame) (h0 : 0 ≤ s.worldTime) (h1 : s.worldTime < 2400) :
    (World.update ChunkWidth ChunkDepth s p).1.worldTime =
      (if s.doDaylightCycle then (s.worldTime + 10) % 2400 else s.worldTime) ∧
    (0 ≤ (World.update ChunkWidth ChunkDepth s p).1.worldTime ∧
      (World.update ChunkWidth ChunkDepth s p).1.worldTime < 2400) ∧
    (0 ≤ (World.updates ChunkWidth ChunkDepth frames s).worldTime ∧
      (World.updates ChunkWidth ChunkDepth frames s).worldTime < 2400) ∧
    (World.updates ChunkWidth ChunkDepth frames World.initialState).worldTime % 10 = 0 ∧
    ((∀ f ∈ frames, f.doDaylightCycle = true) →
      (frames.length = 240 →
        (World.updates ChunkWidth ChunkDepth frames s).worldTime = s.worldTime) ∧
      (0 < frames.length → frames.length < 240 →
        (World.updates ChunkWidth ChunkDepth frames s).worldTime ≠ s.worldTime)) := by
  have hstep := update_worldTime ChunkWidth ChunkDepth s p h0
  have hrun := updates_worldTime_range ChunkWidth ChunkDepth frames s h0 h1
  have hinit := updates_worldTime_range ChunkWidth ChunkDepth frames World.initialState
    (by decide) (by decide)
  refine ⟨hstep, ?_, ⟨hrun.1, hrun.2.1⟩, hinit.2.2 (by decide), ?_⟩
  · rw [hstep]
    split_ifs <;> omega
  · intro hall
    have hcycle := updates_worldTime_cycle ChunkWidth ChunkDepth frames s h0 h1 hall
    refine ⟨?_, ?_⟩
    · intro hlen
      rw [hcycle, hlen]
      omega
    · intro hpos hlt
      rw [hcycle]
      omega

/-- Witness of C12: from the initial state, 240 frames with the daylight cycle on bring
`worldTime` back to 0. -/
theorem worldTime_stays_in_day_witness :
    (World.updates 16 16 (List.replicate 240 ⟨true, World.spawnPosition⟩)
      World.initialState).worldTime = World.initialState.worldTime :=
  ((worldTime_stays_in_day 16 16 World.initialState World.spawnPosition
      (List.replicate 240 ⟨true, World.spawnPosition⟩) (by decide) (by decide)).2.2.2.2
    (fun f hf => by rw [List.eq_of_mem_replicate hf])).1
    (List.length_replicate 240 _)

/-! ### binary32 rounding -/

/-- The binary logarithm of a number between two consecutive powers of two. -/
theorem intLog_eq (q : ℚ) (k : Int) (hlo : (2 : ℚ) ^ k ≤ q) (hhi : q < (2 : ℚ) ^ (k + 1)) :
    Int.log 2 q = k := by
  have hq : 0 < q := lt_of_lt_of_le (by positivity) hlo
  have h1 : k ≤ Int.log 2 q :=
    (Int.zpow_le_iff_le_log (b := 2) (by norm_num) (x := k) hq).mp (by exact_mod_cast hlo)
  have h2 : Int.log 2 q < k + 1 :=
    (Int.lt_zpow_iff_log_lt (b := 2) (by norm_num) (x := k + 1) hq).mp
      (by exact_mod_cast hhi)
  omega

/-- The exponent of a number in the normal range. -/
theorem float32Exponent_eq (q : ℚ) (k : Int) (hk : -126 ≤ k) (hlo : (2 : ℚ) ^ k ≤ |q|)
    (hhi : |q| < (2 : ℚ) ^ (k + 1)) : float32Exponent q = k := by
  unfold float32Exponent
  have h126 : (2 : ℚ) ^ (-126 : Int) ≤ (2 : ℚ) ^ k := zpow_le_zpow_right₀ (by norm_num) hk
  rw [if_neg (not_lt.mpr (le_trans h126 hlo))]
  exact intLog_eq _ k hlo hhi

/-- An integer rounds to itself. -/
theorem roundHalfEven_intCast (n : Int) : roundHalfEven (n : ℚ) = n := by
  simp [roundHalfEven]

/-- A number less than one half away from an integer rounds to that integer. -/
theorem roundHalfEven_of_near (q : ℚ) (n : Int) (h1 : (n : ℚ) - 1 / 2 < q)
    (h2 : q < (n : ℚ) + 1 / 2) : roundHalfEven q = n := by
  unfold roundHalfEven
  by_cases hq : (n : ℚ) ≤ q
  · have hf : ⌊q⌋ = n := by
      rw [Int.floor_eq_iff]; constructor <;> linarith
    rw [hf, if_pos (by linarith)]
  · have hq2 : q < (n : ℚ) := not_le.mp hq
    have hf : ⌊q⌋ = n - 1 := by
      rw [Int.floor_eq_iff]; push_cast; constructor <;> linarith
    rw [hf]
    push_cast
    rw [if_neg (by linarith), if_pos (by linarith)]
    ring

/-- A multiple of the unit in the last place of its own exponent is a value of
`binary32`: rounding leaves it as it is. -/
theorem roundFloat32_of_scaled (q : ℚ) (k n : Int) (hk : -126 ≤ k)
    (hlo : (2 : ℚ) ^ k ≤ |q|) (hhi : |q| < (2 : ℚ) ^ (k + 1))
    (hq : q = (n : ℚ) * (2 : ℚ) ^ (k - 23)) : roundFloat32 q = q := by
  have he := float32Exponent_eq q k hk hlo hhi
  have hne : (2 : ℚ) ^ (k - 23) ≠ 0 := by positivity
  unfold roundFloat32
  rw [he]
  have hdiv : q / (2 : ℚ) ^ (k - 23) = (n : ℚ) := by
    rw [hq]; field_simp
  rw [hdiv, roundHalfEven_intCast, ← hq]

/-- The rounding of a number in the normal range, by its exponent. -/
theorem roundFloat32_of_exponent (q : ℚ) (k : Int) (hk : -126 ≤ k)
    (hlo : (2 : ℚ) ^ k ≤ |q|) (hhi : |q| < (2 : ℚ) ^ (k + 1)) :
    roundFloat32 q
      = (roundHalfEven (q / (2 : ℚ) ^ (k - 23)) : ℚ) * (2 : ℚ) ^ (k - 23) := by
  unfold roundFloat32
  rw [float32Exponent_eq q k hk hlo hhi]

/-- An operation whose exact result is a finite value of `binary32` returns it. -/
theorem float32Of_of_isFloat32 (q : ℚ) (h : isFloat32 q) : float32Of q = some q := by
  unfold float32Of
  rw [h.1, if_pos h.2]

/-- The function `glm::distance2`, operation by operation. -/
theorem distance2_of_steps (a1 a2 b1 b2 dx dy xx yy : ℚ) (d : Option ℚ)
    (hdx : float32Of (b1 - a1) = some dx) (hdy : float32Of (b2 - a2) = some dy)
    (hxx : float32Of (dx * dx) = some xx) (hyy : float32Of (dy * dy) = some yy)
    (hd : float32Of (xx + yy) = d) :
    distance2 (a1, a2) (b1, b2) = d := by
  unfold distance2
  simp only [hdx, hdy, hxx, hyy, hd, Option.some_bind]

/-- The numbers 16, 70, `2^-20`, 256 and `2^-40` are values of `binary32`. -/
theorem isFloat32_samples :
    isFloat32 16 ∧ isFloat32 70 ∧ isFloat32 (1 / 2 ^ 20) ∧ isFloat32 256 ∧
    isFloat32 (1 / 2 ^ 40) := by
  refine ⟨⟨?_, by norm_num [abs_of_pos]⟩, ⟨?_, by norm_num [abs_of_pos]⟩,
    ⟨?_, by norm_num [abs_of_pos]⟩, ⟨?_, by norm_num [abs_of_pos]⟩,
    ⟨?_, by norm_num [abs_of_pos]⟩⟩
  · exact roundFloat32_of_scaled 16 4 8388608 (by norm_num) (by norm_num [abs_of_pos])
      (by norm_num [abs_of_pos]) (by norm_num)
  · exact roundFloat32_of_scaled 70 6 9175040 (by norm_num) (by norm_num [abs_of_pos])
      (by norm_num [abs_of_pos]) (by norm_num)
  · exact roundFloat32_of_scaled (1 / 2 ^ 20) (-20) 8388608 (by norm_num)
      (by norm_num [abs_of_pos]) (by norm_num [abs_of_pos]) (by norm_num)
  · exact roundFloat32_of_scaled 256 8 8388608 (by norm_num) (by norm_num [abs_of_pos])
      (by norm_num [abs_of_pos]) (by norm_num)
  · exact roundFloat32_of_scaled (1 / 2 ^ 40) (-40) 8388608 (by norm_num)
      (by norm_num [abs_of_pos]) (by norm_num [abs_of_pos]) (by norm_num)

/-- The sum `256 + 2^-40` rounds to 256. -/
theorem float32Of_256_plus_tiny : float32Of (256 + 1 / 2 ^ 40) = some 256 := by
  have hr : roundFloat32 (256 + 1 / 2 ^ 40) = 256 := by
    rw [roundFloat32_of_exponent _ 8 (by norm_num) (by norm_num [abs_of_pos])
      (by norm_num [abs_of_pos])]
    rw [roundHalfEven_of_near _ 8388608 (by norm_num) (by norm_num)]
    norm_num
  unfold float32Of
  rw [hr, if_pos (by norm_num [abs_of_pos])]

/-- The squared distance of `(16, 2^-20)` from the origin is computed as 256. -/
theorem distance2_sample : distance2 (16, 1 / 2 ^ 20) (0, 0) = some 256 := by
  have hneg16 : isFloat32 (0 - 16) :=
    ⟨by rw [zero_sub]
        exact roundFloat32_of_scaled (-16) 4 (-8388608) (by norm_num) (by norm_num)
          (by norm_num) (by norm_num),
     by norm_num⟩
  have hnegtiny : isFloat32 (0 - 1 / 2 ^ 20) :=
    ⟨by rw [zero_sub]
        exact roundFloat32_of_scaled (-(1 / 2 ^ 20)) (-20) (-8388608) (by norm_num)
          (by norm_num [abs_of_pos]) (by norm_num [abs_of_pos]) (by norm_num),
     by norm_num [abs_of_pos]⟩
  have hxx : float32Of ((0 - 16) * (0 - 16)) = some 256 := by
    have h : ((0 : ℚ) - 16) * (0 - 16) = 256 := by norm_num
    rw [h]
    exact float32Of_of_isFloat32 256 isFloat32_samples.2.2.2.1
  have hyy : float32Of ((0 - 1 / 2 ^ 20) * (0 - 1 / 2 ^ 20)) = some (1 / 2 ^ 40) := by
    have h : ((0 : ℚ) - 1 / 2 ^ 20) * (0 - 1 / 2 ^ 20) = 1 / 2 ^ 40 := by norm_num
    rw [h]
    exact float32Of_of_isFloat32 _ isFloat32_samples.2.2.2.2
  exact distance2_of_steps 16 (1 / 2 ^ 20) 0 0 (0 - 16) (0 - 1 / 2 ^ 20) 256 (1 / 2 ^ 40)
    (some 256) (float32Of_of_isFloat32 _ hneg16) (float32Of_of_isFloat32 _ hnegtiny)
    hxx hyy float32Of_256_plus_tiny

/-- With chunks of 16 by 16 the check does not fire at `(16, 2^-20)` seen from the origin. -/
theorem radiusExceeded_sample :
    World.radiusExceeded 16 16 (16, 1 / 2 ^ 20) (0, 0) = false := by
  have hthr : roundFloat32 (((16 : Int) * 16 : Int) : ℚ) = 256 := by
    have h : (((16 : Int) * 16 : Int) : ℚ) = 256 := by norm_num
    rw [h]
    exact isFloat32_samples.2.2.2.1.1
  unfold World.radiusExceeded
  rw [distance2_sample, hthr]
  simp [floatGt]

/-- The position after `World::update`, by the outcome of the radius check. -/
theorem update_lastPlayerLoadPosition (ChunkWidth ChunkDepth : Int) (s : World.State)
    (p : Vec3) :
    (World.update ChunkWidth ChunkDepth s p).1.lastPlayerLoadPosition =
      (if World.radiusExceeded ChunkWidth ChunkDepth (p.x, p.z) s.lastPlayerLoadPosition
        then (p.x, p.z) else s.lastPlayerLoadPosition) := by
  simp only [World.update]

/-- The call of `ChunkManager::checkChunkRadius` in `World::update`, by the outcome of the
radius check. -/
theorem update_checkChunkRadius (ChunkWidth ChunkDepth : Int) (s : World.State)
    (p : Vec3) :
    (World.update ChunkWidth ChunkDepth s p).2.checkChunkRadius =
      (if World.radiusExceeded ChunkWidth ChunkDepth (p.x, p.z) s.lastPlayerLoadPosition
        then some p else none) := by
  simp only [World.update]

/-- C4 (counterexample): chunks of 16 by 16, `lastPlayerLoadPosition = (0, 0)`, player at
`(16, 70, 2^-20)`. The squared horizontal distance `256 + 2^-40` exceeds
`ChunkWidth * ChunkDepth = 256`, but `glm::distance2` rounds it to `256.0f`, so
`ChunkManager::checkChunkRadius` is not called and `lastPlayerLoadPosition` stays. -/
theorem update_no_call_though_distance_exceeds :
    (isFloat32 16 ∧ isFloat32 70 ∧ isFloat32 (1 / 2 ^ 20)) ∧
    World.initialState.lastPlayerLoadPosition = (0, 0) ∧
    exactDistance2 (16, 1 / 2 ^ 20) (0, 0) > (((16 : Int) * 16 : Int) : ℚ) ∧
    (World.update 16 16 World.initialState ⟨16, 70, 1 / 2 ^ 20⟩).2.checkChunkRadius = none ∧
    (World.update 16 16 World.initialState ⟨16, 70, 1 / 2 ^ 20⟩).1.lastPlayerLoadPosition
      = (0, 0) := by
  have hlast : World.initialState.lastPlayerLoadPosition = (0, 0) := rfl
  refine ⟨⟨isFloat32_samples.1, isFloat32_samples.2.1, isFloat32_samples.2.2.1⟩, hlast,
    by norm_num [exactDistance2], ?_, ?_⟩
  · rw [update_checkChunkRadius, hlast, radiusExceeded_sample]
    rfl
  · rw [update_lastPlayerLoadPosition, hlast, radiusExceeded_sample]
    rfl

/-- C4 (amended): `World::update` calls `ChunkManager::checkChunkRadius`, with the current
player position, exactly when the squared horizontal distance between the player and
`lastPlayerLoadPosition`, as `glm::distance2` computes it in `float` arithmetic, exceeds
`ChunkWidth * ChunkDepth`; then `lastPlayerLoadPosition` becomes the player's `(x, z)`,
otherwise there is no call and it is unchanged; the player's `y` has no influence on
the decision. -/
theorem update_checkChunkRadius_iff_radiusExceeded (ChunkWidth ChunkDepth : Int)
    (s : World.State) (p : Vec3) :
    ((World.update ChunkWidth ChunkDepth s p).2.checkChunkRadius = some p ↔
      floatGt (distance2 (p.x, p.z) s.lastPlayerLoadPosition)
        (roundFloat32 ((ChunkWidth * ChunkDepth : Int) : ℚ)) = true) ∧
    ((World.update ChunkWidth ChunkDepth s p).2.checkChunkRadius = none ↔
      floatGt (distance2 (p.x, p.z) s.lastPlayerLoadPosition)
        (roundFloat32 ((ChunkWidth * ChunkDepth : Int) : ℚ)) = false) ∧
    (World.update ChunkWidth ChunkDepth s p).1.lastPlayerLoadPosition =
      (if floatGt (distance2 (p.x, p.z) s.lastPlayerLoadPosition)
          (roundFloat32 ((ChunkWidth * ChunkDepth : Int) : ℚ)) = true
        then (p.x, p.z) else s.lastPlayerLoadPosition) ∧
    (∀ y2 : ℚ,
      ((World.update ChunkWidth ChunkDepth s ⟨p.x, y2, p.z⟩).2.checkChunkRadius.isSome =
        (World.update ChunkWidth ChunkDepth s p).2.checkChunkRadius.isSome) ∧
      (World.update ChunkWidth ChunkDepth s ⟨p.x, y2, p.z⟩).1.lastPlayerLoadPosition =
        (World.update ChunkWidth ChunkDepth s p).1.lastPlayerLoadPosition) := by
  have hcall := update_checkChunkRadius ChunkWidth ChunkDepth s p
  have hlast := update_lastPlayerLoadPosition ChunkWidth ChunkDepth s p
  have hy : ∀ y2 : ℚ,
      (World.update ChunkWidth ChunkDepth s ⟨p.x, y2, p.z⟩).2.checkChunkRadius.isSome =
        (World.update ChunkWidth ChunkDepth s p).2.checkChunkRadius.isSome ∧
      (World.update ChunkWidth ChunkDepth s ⟨p.x, y2, p.z⟩).1.lastPlayerLoadPosition =
        (World.update ChunkWidth ChunkDepth s p).1.lastPlayerLoadPosition := by
    intro y2
    rw [update_checkChunkRadius, update_lastPlayerLoadPosition, hcall, hlast]
    cases World.radiusExceeded ChunkWidth ChunkDepth (p.x, p.z) s.lastPlayerLoadPosition <;>
      simp
  unfold World.radiusExceeded at hcall hlast
  refine ⟨?_, ?_, ?_, hy⟩
  · rw [hcall]
    cases floatGt (distance2 (p.x, p.z) s.lastPlayerLoadPosition)
      (roundFloat32 ((ChunkWidth * ChunkDepth : Int) : ℚ)) <;> simp
  · rw [hcall]
    cases floatGt (distance2 (p.x, p.z) s.lastPlayerLoadPosition)
      (roundFloat32 ((ChunkWidth * ChunkDepth : Int) : ℚ)) <;> simp
  · rw [hlast]

end Minecraft
